import Mathlib

/-!
Shallow embedding of the scan-persistence layer of mdn-http-observatory:
the PostgreSQL adapter and the Neo4j adapter
(src/database/adapters/postgresql.js, src/database/adapters/neo4j.js),
together with the adapter factory (src/database/adapter.js).

Databases are modelled as explicit states (lists of rows / nodes); each
adapter method becomes a pure function from state to result and new state.
Timestamps are naturals (the engine clock is a `now` field of the state);
identifier generation (serial columns, `randomUuid()`, the Neo4j site-id
string) is modelled by a fresh-id counter, which preserves exactly what the
claims use: freshness and identity of identifiers.
-/

namespace Observatory

/-- Scan lifecycle states, from the `ScanState` enum shared by both adapters. -/
inductive ScanState where
  | ABORTED
  | FAILED
  | FINISHED
  | PENDING
  | STARTING
  | RUNNING
deriving DecidableEq, Repr

/-- The terminal states of the lifecycle (FINISHED, FAILED, ABORTED). -/
def ScanState.isTerminal : ScanState → Bool
  | .FINISHED => true
  | .FAILED => true
  | .ABORTED => true
  | _ => false

/-- `ALGORITHM_VERSION` constant exported by the adapter module. -/
def ALGORITHM_VERSION : Int := 4

/-- A row of the `sites` table / a `Site` node. -/
structure SiteRow where
  id : Nat
  domain : String
  creation_time : Nat
deriving DecidableEq, Repr

/-- A row of the `scans` table / a `Scan` node.  Nullable columns (absent
node properties on the graph backend) are `Option`. -/
structure ScanRow where
  id : Nat
  site_id : Nat
  state : ScanState
  start_time : Nat
  end_time : Option Nat
  tests_failed : Int
  tests_passed : Int
  tests_quantity : Int
  grade : Option String
  score : Option Int
  error : Option String
  response_headers : Option String
  status_code : Option Int
  algorithm_version : Int
deriving DecidableEq, Repr

/-- A row of the `tests` table (relational backend). -/
structure PGTestRow where
  site_id : Nat
  scan_id : Nat
  name : String
  expectation : String
  result : String
  pass : Bool
  output : String
  score_modifier : Int
deriving DecidableEq, Repr

/-- A `TestResult` node (graph backend). -/
structure NeoTestRow where
  id : Nat
  scan_id : Nat
  name : String
  expectation : String
  result : String
  pass : Bool
  score_modifier : Int
  output : String
deriving DecidableEq, Repr

/-- One entry of the `tests` map of an external scan result: the fields the
adapters extract (`expectation`, `result`, `pass`, `scoreModifier`), plus the
JSON serialization of the remaining fields, kept opaque as `rest`. -/
structure TestOutcome where
  expectation : String
  result : String
  pass : Bool
  scoreModifier : Int
  rest : String
deriving DecidableEq, Repr

/-- The `scan` part of an external scan result (`scanResult.scan`). -/
structure ScanMeta where
  testsFailed : Int
  testsPassed : Int
  grade : Option String
  score : Option Int
  responseHeaders : Option String
  statusCode : Option Int
  algorithmVersion : Int
  testsQuantity : Int
  error : Option String
deriving DecidableEq, Repr

/-- A completed external scan result handed to `insertTestResults`:
the outcome map (as an association list, preserving enumeration order of
`Object.entries`) plus the scan metadata. -/
structure ScanResult where
  scan : ScanMeta
  tests : List (String × TestOutcome)
deriving DecidableEq, Repr

/-- Modelled from the spec: the shape of a completed `ScanResult` produced by
the external retrieval-and-analysis pipeline (its type lives in
`src/types.js`, which is not part of the persistence layer sources).  Per the
spec's data model, a completed result's `grade` and `score` are
simultaneously null or simultaneously set, and a failed result
(`score = null`) carries a non-null error message. -/
def WellFormedScanResult (r : ScanResult) : Prop :=
  (r.scan.grade = none ↔ r.scan.score = none) ∧
  (r.scan.score = none → r.scan.error ≠ none)

/-- JavaScript truthiness of the optional `error` string argument
(`if (error)` / `error ? … : …`): `null`, `undefined` and `""` are falsy. -/
def errTruthy : Option String → Bool
  | none => false
  | some s => s ≠ ""

/-- The canonical caller-facing scan shape produced by the graph adapter's
`_mapScanRow` (the relational rows already carry these column names). -/
structure NormalizedScan where
  id : Nat
  site_id : Nat
  state : ScanState
  start_time : Nat
  end_time : Option Nat
  tests_failed : Int
  tests_passed : Int
  tests_quantity : Int
  grade : Option String
  score : Option Int
  error : Option String
  algorithm_version : Int
deriving DecidableEq, Repr

/-- `_mapScanRow` of the graph adapter.  `scan.endTime ? new Date(…) : null`
uses JS truthiness, so an `endTime` of `0` also maps to `null`. -/
def mapScanRow (s : ScanRow) : NormalizedScan :=
  { id := s.id
    site_id := s.site_id
    state := s.state
    start_time := s.start_time
    end_time := match s.end_time with
      | some t => if t = 0 then none else some t
      | none => none
    tests_failed := s.tests_failed
    tests_passed := s.tests_passed
    tests_quantity := s.tests_quantity
    grade := s.grade
    score := s.score
    error := s.error
    algorithm_version := s.algorithm_version }

/-- Errors surfaced by this layer (spec §7 taxonomy; only the ones the
embedded operations can raise). -/
inductive DBError where
  | NotFound
deriving DecidableEq, Repr

/-! ## Relational backend (`PostgreSQLAdapter`) -/

/-- The relational store: the three tables in insertion order, fresh-id
counters for the serial primary keys, and the engine clock (`NOW()`). -/
structure PGState where
  sites : List SiteRow
  scans : List ScanRow
  tests : List PGTestRow
  nextSiteId : Nat
  nextScanId : Nat
  now : Nat
deriving DecidableEq, Repr

/-- `SELECT id FROM sites WHERE domain = $1 ORDER BY creation_time DESC
LIMIT 1`: the matching row with the greatest creation time (the first such
row in table order when tied, fixing the engine's unspecified tie order
deterministically). -/
def selectLatestSite (sites : List SiteRow) (key : String) : Option SiteRow :=
  (sites.filter (fun s => s.domain = key)).foldl
    (fun acc s =>
      match acc with
      | none => some s
      | some b => if b.creation_time < s.creation_time then some s else acc)
    none

/-- `PostgreSQLAdapter.ensureSite`: look the domain up; insert a fresh row
when absent.  Returns the site id and the new state. -/
def pgEnsureSite (st : PGState) (siteKey : String) : Nat × PGState :=
  match selectLatestSite st.sites siteKey with
  | some s => (s.id, st)
  | none =>
      let site : SiteRow :=
        { id := st.nextSiteId, domain := siteKey, creation_time := st.now }
      (site.id,
        { st with sites := st.sites ++ [site], nextSiteId := st.nextSiteId + 1 })

/-- Modelled from the spec: the relational schema (built by the migration
scripts, which are not among the persistence-layer sources) declares a
foreign key from `scans.site_id` to `sites.id` — so inserting a scan for an
absent site fails (`NotFound`) — and defaults the `tests_passed` and
`tests_failed` columns, absent from `insertScan`'s column list, to zero
("creates a new Scan in RUNNING state with zero counts").
`PostgreSQLAdapter.insertScan`: `INSERT INTO scans (site_id, state,
start_time, tests_quantity, algorithm_version) VALUES ($1, RUNNING, NOW(),
0, ALGORITHM_VERSION) RETURNING *`. -/
def pgInsertScan (st : PGState) (siteId : Nat) :
    Except DBError (ScanRow × PGState) :=
  if (st.sites.filter (fun s => s.id = siteId)).isEmpty then
    .error .NotFound
  else
    let row : ScanRow :=
      { id := st.nextScanId
        site_id := siteId
        state := .RUNNING
        start_time := st.now
        end_time := none
        tests_failed := 0
        tests_passed := 0
        tests_quantity := 0
        grade := none
        score := none
        error := none
        response_headers := none
        status_code := none
        algorithm_version := ALGORITHM_VERSION }
    .ok (row,
      { st with scans := st.scans ++ [row], nextScanId := st.nextScanId + 1 })

/-- The rows `insertTestResults` builds from the outcome map
(`Object.entries(scanResult.tests).map(…)`). -/
def pgTestRows (siteId scanId : Nat) (r : ScanResult) : List PGTestRow :=
  r.tests.map (fun (nt : String × TestOutcome) =>
    { site_id := siteId
      scan_id := scanId
      name := nt.1
      expectation := nt.2.expectation
      result := nt.2.result
      pass := nt.2.pass
      output := nt.2.rest
      score_modifier := nt.2.scoreModifier })

/-- The terminal `UPDATE scans SET … WHERE id = $11` of
`insertTestResults`, applied to one row: every listed column is set, and the
state becomes FINISHED when `scan.score !== null`, otherwise FAILED. -/
def pgTerminalUpdate (scanId : Nat) (m : ScanMeta) (now : Nat)
    (s : ScanRow) : ScanRow :=
  if s.id = scanId then
    { s with
      end_time := some now
      tests_failed := m.testsFailed
      tests_passed := m.testsPassed
      grade := m.grade
      score := m.score
      state := if m.score ≠ none then .FINISHED else .FAILED
      response_headers := m.responseHeaders
      status_code := m.statusCode
      algorithm_version := m.algorithmVersion
      tests_quantity := m.testsQuantity
      error := m.error }
  else s

/-- One backend write issued by the relational `insertTestResults`: the
batched `INSERT INTO tests … VALUES %L`, or the terminal scan `UPDATE`. -/
inductive PGWrite where
  | insertTests (rows : List PGTestRow)
  | updateScanTerminal (scanId : Nat) (m : ScanMeta)
deriving DecidableEq, Repr

/-- Effect of one relational write on the store. -/
def pgApplyWrite (st : PGState) : PGWrite → PGState
  | .insertTests rows => { st with tests := st.tests ++ rows }
  | .updateScanTerminal scanId m =>
      { st with scans := st.scans.map (pgTerminalUpdate scanId m st.now) }

/-- The sequence of backend writes `PostgreSQLAdapter.insertTestResults`
issues, in program order: the batched test insert (skipped when the outcome
map is empty), then the terminal scan update.  Each write is a separate
`pool.query` call — there is no wrapping transaction. -/
def pgWrites (siteId scanId : Nat) (r : ScanResult) : List PGWrite :=
  (if (pgTestRows siteId scanId r).isEmpty then []
   else [.insertTests (pgTestRows siteId scanId r)]) ++
  [.updateScanTerminal scanId r.scan]

/-- `PostgreSQLAdapter.insertTestResults`: apply the writes in order; the
returned row is the updated scan (`RETURNING *`, first row). -/
def pgInsertTestResults (st : PGState) (siteId scanId : Nat)
    (r : ScanResult) : Option ScanRow × PGState :=
  let st' := (pgWrites siteId scanId r).foldl pgApplyWrite st
  (st'.scans.find? (fun s => s.id = scanId), st')

/-- `PostgreSQLAdapter.selectScan`: `SELECT * FROM scans WHERE id = $1`,
first row. -/
def pgSelectScan (st : PGState) (scanId : Nat) : Option ScanRow :=
  st.scans.find? (fun s => s.id = scanId)

/-- `PostgreSQLAdapter.updateScanState`: with a truthy error,
`SET (state, end_time, error) = ($1, NOW(), $2)`; otherwise
`SET state = $1` only.  Returns the updated row (`RETURNING *`). -/
def pgUpdateScanState (st : PGState) (scanId : Nat) (state : ScanState)
    (error : Option String) : Option ScanRow × PGState :=
  let upd : ScanRow → ScanRow := fun s =>
    if s.id = scanId then
      if errTruthy error then
        { s with state := state, end_time := some st.now, error := error }
      else
        { s with state := state }
    else s
  let st' := { st with scans := st.scans.map upd }
  (st'.scans.find? (fun s => s.id = scanId), st')

/-- Stable insertion of one element into a list ordered by the boolean
comparison `le` (models the engine's `ORDER BY … ASC`). -/
def insertSorted (le : α → α → Bool) (x : α) : List α → List α
  | [] => [x]
  | y :: ys => if le x y then x :: y :: ys else y :: insertSorted le x ys

/-- Stable sort by the boolean comparison `le`. -/
def sortBy (le : α → α → Bool) (l : List α) : List α :=
  l.foldr (insertSorted le) []

/-- `ORDER BY end_time ASC` over the nullable `end_time` column
(ascending, nulls last — the engine default). -/
def endTimeLe (a b : ScanRow) : Bool :=
  match a.end_time, b.end_time with
  | some x, some y => x ≤ y
  | some _, none => true
  | none, some _ => false
  | none, none => true

/-- The window filter of the relational history query: keep each row whose
`score` `IS DISTINCT FROM` the previous row's score (`LAG(score)`), the
previous score of the first row being SQL NULL (`none`). -/
def lagFilter (prev : Option Int) : List ScanRow → List ScanRow
  | [] => []
  | x :: xs =>
      (if x.score ≠ prev then [x] else []) ++ lagFilter x.score xs

/-- One entry of `selectScanHostHistory`'s output: both backends surface the
scan's start time under the name `end_time`, plus a unix-seconds copy. -/
structure HistoryEntry where
  id : Nat
  grade : Option String
  score : Option Int
  end_time : Nat
  end_time_unix_timestamp : Nat
deriving DecidableEq, Repr

/-- The relational history projection: `start_time as end_time`,
`round(extract(epoch from start_time))` (the clock is already in seconds). -/
def pgHistoryEntry (s : ScanRow) : HistoryEntry :=
  { id := s.id
    grade := s.grade
    score := s.score
    end_time := s.start_time
    end_time_unix_timestamp := s.start_time }

/-- `PostgreSQLAdapter.selectScanHostHistory`: FINISHED scans of the site;
`LAG(score)` over the rows ordered by the `end_time` column; keep rows whose
score differs from the lagged one; project; order the output by the
`end_time` alias (which is `start_time`). -/
def pgSelectScanHostHistory (st : PGState) (siteId : Nat) :
    List HistoryEntry :=
  let rows := st.scans.filter
    (fun s => s.site_id = siteId ∧ s.state = .FINISHED)
  let kept := lagFilter none (sortBy endTimeLe rows)
  sortBy (fun a b => a.end_time ≤ b.end_time) (kept.map pgHistoryEntry)

/-! ## Graph backend (`Neo4jAdapter`) -/

/-- The graph store: `Site`, `Scan` and `TestResult` nodes, a fresh-id
counter standing for `randomUuid()` / the constructed site-id string, and
the clock (`Date.now()`, milliseconds). -/
structure NeoState where
  sites : List SiteRow
  scans : List ScanRow
  tests : List NeoTestRow
  nextId : Nat
  now : Nat
deriving DecidableEq, Repr

/-- `Neo4jAdapter.ensureSite`: `MATCH (s:Site {domain}) RETURN s.id ORDER BY
s.creationTime DESC LIMIT 1`; create a fresh `Site` node when absent. -/
def neoEnsureSite (st : NeoState) (siteKey : String) : Nat × NeoState :=
  match selectLatestSite st.sites siteKey with
  | some s => (s.id, st)
  | none =>
      let site : SiteRow :=
        { id := st.nextId, domain := siteKey, creation_time := st.now }
      (site.id,
        { st with sites := st.sites ++ [site], nextId := st.nextId + 1 })

/-- `Neo4jAdapter.insertScan`: `MATCH (s:Site {id}) CREATE (scan:Scan {…})`;
when the site does not match, no record comes back and the adapter throws
`Site not found` (modelled as `NotFound`).  The created node carries no
`endTime`/`grade`/`score`/`error` properties, and the method returns a
normalized record built literally with those fields null. -/
def neoInsertScan (st : NeoState) (siteId : Nat) :
    Except DBError (NormalizedScan × NeoState) :=
  if (st.sites.filter (fun s => s.id = siteId)).isEmpty then
    .error .NotFound
  else
    let row : ScanRow :=
      { id := st.nextId
        site_id := siteId
        state := .RUNNING
        start_time := st.now
        end_time := none
        tests_failed := 0
        tests_passed := 0
        tests_quantity := 0
        grade := none
        score := none
        error := none
        response_headers := none
        status_code := none
        algorithm_version := ALGORITHM_VERSION }
    let rec' : NormalizedScan :=
      { id := row.id
        site_id := siteId
        state := row.state
        start_time := row.start_time
        end_time := none
        tests_failed := row.tests_failed
        tests_passed := row.tests_passed
        tests_quantity := row.tests_quantity
        grade := none
        score := none
        error := none
        algorithm_version := row.algorithm_version }
    .ok (rec',
      { st with scans := st.scans ++ [row], nextId := st.nextId + 1 })

/-- The per-test data the graph `insertTestResults` sends (`testQueries`). -/
structure NeoTestData where
  name : String
  expectation : String
  result : String
  pass : Bool
  scoreModifier : Int
  output : String
deriving DecidableEq, Repr

/-- `Object.entries(scanResult.tests).map(…)` of the graph adapter. -/
def neoTestData (r : ScanResult) : List NeoTestData :=
  r.tests.map (fun (nt : String × TestOutcome) =>
    { name := nt.1
      expectation := nt.2.expectation
      result := nt.2.result
      pass := nt.2.pass
      scoreModifier := nt.2.scoreModifier
      output := nt.2.rest })

/-- One backend write issued by the graph `insertTestResults`: a single
`MATCH (scan) CREATE (test:TestResult …)` statement, or the terminal
`MATCH (scan) SET …`. -/
inductive NeoWrite where
  | insertTest (scanId : Nat) (t : NeoTestData)
  | updateScanTerminal (scanId : Nat) (m : ScanMeta)
deriving DecidableEq, Repr

/-- The terminal `SET` of the graph `insertTestResults`, on one node. -/
def neoTerminalUpdate (scanId : Nat) (m : ScanMeta) (now : Nat)
    (s : ScanRow) : ScanRow :=
  if s.id = scanId then
    { s with
      end_time := some now
      tests_failed := m.testsFailed
      tests_passed := m.testsPassed
      grade := m.grade
      score := m.score
      state := if m.score ≠ none then .FINISHED else .FAILED
      response_headers := m.responseHeaders
      status_code := m.statusCode
      tests_quantity := m.testsQuantity
      error := m.error }
  else s

/-- Effect of one graph write: the test `CREATE` runs only when the `MATCH`
on the scan succeeds, and consumes a fresh id (`randomUuid()`). -/
def neoApplyWrite (st : NeoState) : NeoWrite → NeoState
  | .insertTest scanId t =>
      if (st.scans.filter (fun s => s.id = scanId)).isEmpty then st
      else
        { st with
          tests := st.tests ++
            [{ id := st.nextId
               scan_id := scanId
               name := t.name
               expectation := t.expectation
               result := t.result
               pass := t.pass
               score_modifier := t.scoreModifier
               output := t.output }]
          nextId := st.nextId + 1 }
  | .updateScanTerminal scanId m =>
      { st with scans := st.scans.map (neoTerminalUpdate scanId m st.now) }

/-- The writes `Neo4jAdapter.insertTestResults` issues, in program order:
one `CREATE` per outcome-map entry (a `for`-loop of separate statements),
then the terminal scan update. -/
def neoWrites (scanId : Nat) (r : ScanResult) : List NeoWrite :=
  (neoTestData r).map (fun t => NeoWrite.insertTest scanId t) ++
  [NeoWrite.updateScanTerminal scanId r.scan]

/-- `Neo4jAdapter.insertTestResults`: apply the writes in order; the method
then normalizes and returns the updated scan node. -/
def neoInsertTestResults (st : NeoState) (siteId scanId : Nat)
    (r : ScanResult) : Option NormalizedScan × NeoState :=
  let st' := (neoWrites scanId r).foldl neoApplyWrite st
  ((st'.scans.find? (fun s => s.id = scanId)).map mapScanRow, st')

/-- `Neo4jAdapter.selectScan`: `MATCH (scan:Scan {id}) RETURN scan`,
normalized; `undefined` when absent. -/
def neoSelectScan (st : NeoState) (scanId : Nat) : Option NormalizedScan :=
  (st.scans.find? (fun s => s.id = scanId)).map mapScanRow

/-- `Neo4jAdapter.updateScanState`: `SET scan += $props` with
`props = { state, endTime: error ? Date.now() : null }` plus `error` only
when truthy.  In the graph engine, a null value in a `+=` map removes the
property: a call without a (truthy) error therefore erases `endTime`. -/
def neoUpdateScanState (st : NeoState) (scanId : Nat) (state : ScanState)
    (error : Option String) : Option NormalizedScan × NeoState :=
  let upd : ScanRow → ScanRow := fun s =>
    if s.id = scanId then
      if errTruthy error then
        { s with state := state, end_time := some st.now, error := error }
      else
        { s with state := state, end_time := none }
    else s
  let st' := { st with scans := st.scans.map upd }
  ((st'.scans.find? (fun s => s.id = scanId)).map mapScanRow, st')

/-- Adjacent pairs of a list: the graph history query's
`UNWIND range(0, size(scans)-2)` with `prev = scans[idx]`,
`curr = scans[idx+1]`. -/
def neoPairs : List ScanRow → List (ScanRow × ScanRow)
  | x :: y :: rest => (x, y) :: neoPairs (y :: rest)
  | _ => []

/-- The graph history projection: `end_time` is the scan's start time
(milliseconds), the unix copy is `toInteger(startTime / 1000)`. -/
def neoHistoryEntry (s : ScanRow) : HistoryEntry :=
  { id := s.id
    grade := s.grade
    score := s.score
    end_time := s.start_time
    end_time_unix_timestamp := s.start_time / 1000 }

/-- `Neo4jAdapter.selectScanHostHistory`: FINISHED scans of the site with a
non-null score, ordered by start time; for each adjacent pair keep `curr`
when its score `IS DISTINCT FROM` `prev`'s; project and order the output by
its `end_time`.  Note the earliest scan only ever appears as `prev`, never
as `curr`. -/
def neoSelectScanHostHistory (st : NeoState) (siteId : Nat) :
    List HistoryEntry :=
  let rows := st.scans.filter
    (fun s => s.site_id = siteId ∧ s.state = .FINISHED ∧ s.score ≠ none)
  let sorted := sortBy (fun a b => a.start_time ≤ b.start_time) rows
  let kept := (neoPairs sorted).filter (fun pc => pc.1.score ≠ pc.2.score)
  sortBy (fun a b => a.end_time ≤ b.end_time)
    (kept.map (fun pc => neoHistoryEntry pc.2))

/-! ## Adapter factory (`createDatabaseAdapter`) -/

/-- The two storage backends the factory can construct. -/
inductive BackendKind where
  | postgresql
  | neo4j
deriving DecidableEq, Repr

/-- `createDatabaseAdapter` (src/database/adapter.js): `"neo4j"` selects the
graph adapter; every other discriminator value falls through the
`// Default to PostgreSQL` branch.  The function is total — it never
raises a configuration error. -/
def createDatabaseAdapter (dbType : String) : BackendKind :=
  if dbType = "neo4j" then .neo4j else .postgresql

/-! ## Helper lemmas -/

theorem selectLatestSite_step_some (key : String) (xs : List SiteRow)
    (b : SiteRow) :
    xs.foldl
      (fun acc s =>
        match acc with
        | none => some s
        | some c => if c.creation_time < s.creation_time then some s else acc)
      (some b) ≠ none := by
  induction xs generalizing b with
  | nil => simp
  | cons x xs ih =>
      simp only [List.foldl_cons]
      by_cases h : b.creation_time < x.creation_time
      · simpa [h] using ih x
      · simpa [h] using ih b

theorem selectLatestSite_eq_none_iff (sites : List SiteRow) (key : String) :
    selectLatestSite sites key = none ↔
      sites.filter (fun s => s.domain = key) = [] := by
  unfold selectLatestSite
  cases h : sites.filter (fun s => s.domain = key) with
  | nil => simp [h]
  | cons x xs =>
      simp only [h, List.foldl_cons]
      constructor
      · intro hc
        exact absurd hc (selectLatestSite_step_some key xs x)
      · intro hc
        exact absurd hc (List.cons_ne_nil x xs)

theorem selectLatestSite_append_single (sites : List SiteRow) (key : String)
    (site : SiteRow) (hf : sites.filter (fun s => s.domain = key) = [])
    (hd : site.domain = key) :
    selectLatestSite (sites ++ [site]) key = some site := by
  unfold selectLatestSite
  rw [List.filter_append, hf]
  simp [hd]

theorem find_map_of_pred_inv (f : α → α) (p : α → Bool)
    (hf : ∀ x, p (f x) = p x) (l : List α) :
    (l.map f).find? p = (l.find? p).map f := by
  induction l with
  | nil => rfl
  | cons x xs ih =>
      by_cases h : p x = true
      · rw [List.map_cons, List.find?_cons_of_pos _ (by rw [hf]; exact h),
          List.find?_cons_of_pos _ h]
        rfl
      · rw [List.map_cons,
          List.find?_cons_of_neg _ (by rw [hf]; simpa using h),
          List.find?_cons_of_neg _ (by simpa using h), ih]

theorem pgTerminalUpdate_id (scanId : Nat) (m : ScanMeta) (now : Nat)
    (s : ScanRow) : (pgTerminalUpdate scanId m now s).id = s.id := by
  unfold pgTerminalUpdate; split <;> rfl

theorem neoTerminalUpdate_id (scanId : Nat) (m : ScanMeta) (now : Nat)
    (s : ScanRow) : (neoTerminalUpdate scanId m now s).id = s.id := by
  unfold neoTerminalUpdate; split <;> rfl

/-- The relational `insertTestResults` appends the mapped test rows and
applies the terminal update to every scan row, at the clock value the call
started with. -/
theorem pg_insertTestResults_state (st : PGState) (siteId scanId : Nat)
    (r : ScanResult) :
    (pgInsertTestResults st siteId scanId r).2 =
      { st with
        tests := st.tests ++ pgTestRows siteId scanId r
        scans := st.scans.map (pgTerminalUpdate scanId r.scan st.now) } := by
  unfold pgInsertTestResults pgWrites
  by_cases h : (pgTestRows siteId scanId r).isEmpty
  · have he : pgTestRows siteId scanId r = [] := by
      simpa [List.isEmpty_iff] using h
    simp [h, pgApplyWrite, he]
  · simp [h, pgApplyWrite]

theorem neoApplyWrite_insertTest_scans (st : NeoState) (scanId : Nat)
    (t : NeoTestData) :
    (neoApplyWrite st (.insertTest scanId t)).scans = st.scans := by
  simp only [neoApplyWrite]
  split <;> rfl

theorem neoApplyWrite_insertTest_now (st : NeoState) (scanId : Nat)
    (t : NeoTestData) :
    (neoApplyWrite st (.insertTest scanId t)).now = st.now := by
  simp only [neoApplyWrite]
  split <;> rfl

theorem neo_foldl_insertTest_scans (scanId : Nat) (ts : List NeoTestData)
    (st : NeoState) :
    (((ts.map (fun t => NeoWrite.insertTest scanId t)).foldl
        neoApplyWrite st).scans = st.scans) ∧
      (((ts.map (fun t => NeoWrite.insertTest scanId t)).foldl
        neoApplyWrite st).now = st.now) := by
  induction ts generalizing st with
  | nil => exact ⟨rfl, rfl⟩
  | cons t ts ih =>
      simp only [List.map_cons, List.foldl_cons]
      refine ⟨?_, ?_⟩
      · rw [(ih (neoApplyWrite st (.insertTest scanId t))).1,
          neoApplyWrite_insertTest_scans]
      · rw [(ih (neoApplyWrite st (.insertTest scanId t))).2,
          neoApplyWrite_insertTest_now]

/-- The graph `insertTestResults` applies the terminal update to every scan
node (the per-test `CREATE` statements never touch scan nodes), at the
clock value the call started with. -/
theorem neo_insertTestResults_scans (st : NeoState) (siteId scanId : Nat)
    (r : ScanResult) :
    (neoInsertTestResults st siteId scanId r).2.scans =
      st.scans.map (neoTerminalUpdate scanId r.scan st.now) := by
  unfold neoInsertTestResults neoWrites
  rw [List.foldl_append]
  have h := neo_foldl_insertTest_scans scanId (neoTestData r) st
  simp only [List.foldl_cons, List.foldl_nil, neoApplyWrite, h.1, h.2]

/-! ## Sample fixtures for witnesses and counterexamples -/

/-- A RUNNING scan row as `insertScan` creates it. -/
def runningScanRow (id site start : Nat) : ScanRow :=
  { id := id
    site_id := site
    state := .RUNNING
    start_time := start
    end_time := none
    tests_failed := 0
    tests_passed := 0
    tests_quantity := 0
    grade := none
    score := none
    error := none
    response_headers := none
    status_code := none
    algorithm_version := 4 }

/-- A relational store with one site and one RUNNING scan (id 1). -/
def samplePG : PGState :=
  { sites := [{ id := 1, domain := "example.com", creation_time := 0 }]
    scans := [runningScanRow 1 1 100]
    tests := []
    nextSiteId := 2
    nextScanId := 2
    now := 500 }

/-- A graph store with one site and one RUNNING scan (id 1). -/
def sampleNeo : NeoState :=
  { sites := [{ id := 1, domain := "example.com", creation_time := 0 }]
    scans := [runningScanRow 1 1 100]
    tests := []
    nextId := 2
    now := 500 }

/-- One test outcome as the external pipeline reports it. -/
def sampleOutcome : TestOutcome :=
  { expectation := "csp-implemented"
    result := "csp-implemented"
    pass := true
    scoreModifier := 0
    rest := "\x7b\x7d" }

/-- A successful completed scan result (two passing tests, score 105). -/
def sampleResultFinished : ScanResult :=
  { scan :=
      { testsFailed := 0
        testsPassed := 2
        grade := some "A+"
        score := some 105
        responseHeaders := some "\x7b\x7d"
        statusCode := some 200
        algorithmVersion := 4
        testsQuantity := 2
        error := none }
    tests := [("csp", sampleOutcome), ("hsts", sampleOutcome)] }

/-- A failed completed scan result (null score, an error, no tests). -/
def sampleResultFailed : ScanResult :=
  { scan :=
      { testsFailed := 0
        testsPassed := 0
        grade := none
        score := none
        responseHeaders := none
        statusCode := none
        algorithmVersion := 4
        testsQuantity := 0
        error := some "TIMEOUT" }
    tests := [] }

/-! ## Claims -/

/-- A FINISHED scan row with the given id, site, start time (its end time
equal to it), score and grade — the shape the terminal transition leaves
behind, used to build concrete stores. -/
def finScanRow (id site start : Nat) (sc : Int) (g : String) : ScanRow :=
  { id := id
    site_id := site
    state := .FINISHED
    start_time := start
    end_time := some start
    tests_failed := 0
    tests_passed := 10
    tests_quantity := 10
    grade := some g
    score := some sc
    error := none
    response_headers := none
    status_code := some 200
    algorithm_version := 4 }

/-- C1: for a site whose three FINISHED scans have scores
`[100, 100, 90]` in chronological order, the relational
`selectScanHostHistory` returns 2 entries (scores 100 then 90), as the spec
states — but the graph implementation returns a single entry (score 90):
its pairwise `UNWIND` only ever emits `scans[idx+1]`, so the earliest scan
(the first occurrence of the first run) is always dropped. -/
theorem c1_history_backends_disagree :
    (pgSelectScanHostHistory
        { sites := [{ id := 1, domain := "example.com", creation_time := 0 }]
          scans := [finScanRow 1 1 100 100 "A+", finScanRow 2 1 200 100 "A+",
            finScanRow 3 1 300 90 "A-"]
          tests := []
          nextSiteId := 2
          nextScanId := 4
          now := 1000 } 1).map (fun e => e.score) = [some 100, some 90] ∧
      (neoSelectScanHostHistory
        { sites := [{ id := 1, domain := "example.com", creation_time := 0 }]
          scans := [finScanRow 1 1 100 100 "A+", finScanRow 2 1 200 100 "A+",
            finScanRow 3 1 300 90 "A-"]
          tests := []
          nextId := 4
          now := 1000 } 1).map (fun e => e.score) = [some 90] := by
  decide

/-- C2 (counterexample): a configuration whose backend discriminator
(`"oracle"`) names neither recognized backend does not make the factory
fail — `createDatabaseAdapter` returns the relational adapter. -/
theorem c2_unknown_backend_returns_postgresql :
    createDatabaseAdapter "oracle" = BackendKind.postgresql := rfl

/-- C2 (amended): for every backend discriminator other than `"neo4j"`,
recognized or not, `createDatabaseAdapter` returns the relational
(PostgreSQL) adapter; the factory never fails with a configuration error. -/
theorem c2_factory_defaults_to_postgresql (t : String) (h : t ≠ "neo4j") :
    createDatabaseAdapter t = BackendKind.postgresql := by
  unfold createDatabaseAdapter
  simp [h]

theorem c2_factory_defaults_to_postgresql_witness :
    ("sqlite" : String) ≠ "neo4j" ∧
      createDatabaseAdapter "sqlite" = BackendKind.postgresql :=
  ⟨by decide, c2_factory_defaults_to_postgresql "sqlite" (by decide)⟩

/-- C3: for every well-formed completed scan result handed to
`insertTestResults` on a stored scan: when `result.score` is null, a
subsequent `selectScan` reports state FAILED with a non-null error; when
`result.score` is a number, it reports state FINISHED with non-null grade
and score — on both backends. -/
theorem c3_terminal_state_reflects_score
    (stP : PGState) (stN : NeoState) (siteId scanId : Nat) (r : ScanResult)
    (hwf : WellFormedScanResult r)
    (hP : ∃ s ∈ stP.scans, s.id = scanId)
    (hN : ∃ s ∈ stN.scans, s.id = scanId) :
    (∃ s, pgSelectScan (pgInsertTestResults stP siteId scanId r).2 scanId =
        some s ∧
        (r.scan.score = none → s.state = .FAILED ∧ s.error ≠ none) ∧
        (r.scan.score ≠ none →
          s.state = .FINISHED ∧ s.grade ≠ none ∧ s.score ≠ none)) ∧
      (∃ n, neoSelectScan (neoInsertTestResults stN siteId scanId r).2
          scanId = some n ∧
        (r.scan.score = none → n.state = .FAILED ∧ n.error ≠ none) ∧
        (r.scan.score ≠ none →
          n.state = .FINISHED ∧ n.grade ≠ none ∧ n.score ≠ none)) := by
  constructor
  · rw [pg_insertTestResults_state]
    unfold pgSelectScan
    dsimp only
    rw [find_map_of_pred_inv _ _
      (fun x => by rw [pgTerminalUpdate_id])]
    cases hfind : stP.scans.find? (fun s => s.id = scanId) with
    | none =>
        obtain ⟨s0, hs0, hid⟩ := hP
        have := List.find?_eq_none.mp hfind s0 hs0
        simp [hid] at this
    | some s0 =>
        have hs0 : s0.id = scanId := by
          simpa using List.find?_some hfind
        refine ⟨pgTerminalUpdate scanId r.scan stP.now s0, rfl, ?_, ?_⟩
        · intro hsc
          unfold pgTerminalUpdate
          simp only [hs0, if_pos rfl]
          exact ⟨by simp [hsc], hwf.2 hsc⟩
        · intro hsc
          unfold pgTerminalUpdate
          simp only [hs0, if_pos rfl]
          refine ⟨by simp [hsc], ?_, hsc⟩
          intro hg
          exact hsc (hwf.1.mp hg)
  · unfold neoSelectScan
    rw [neo_insertTestResults_scans]
    rw [find_map_of_pred_inv _ _
      (fun x => by rw [neoTerminalUpdate_id])]
    cases hfind : stN.scans.find? (fun s => s.id = scanId) with
    | none =>
        obtain ⟨s0, hs0, hid⟩ := hN
        have := List.find?_eq_none.mp hfind s0 hs0
        simp [hid] at this
    | some s0 =>
        have hs0 : s0.id = scanId := by
          simpa using List.find?_some hfind
        refine ⟨mapScanRow (neoTerminalUpdate scanId r.scan stN.now s0),
          rfl, ?_, ?_⟩
        · intro hsc
          unfold neoTerminalUpdate mapScanRow
          simp only [hs0, if_pos rfl]
          exact ⟨by simp [hsc], hwf.2 hsc⟩
        · intro hsc
          unfold neoTerminalUpdate mapScanRow
          simp only [hs0, if_pos rfl]
          refine ⟨by simp [hsc], ?_, hsc⟩
          intro hg
          exact hsc (hwf.1.mp hg)

theorem c3_terminal_state_reflects_score_witness :
    WellFormedScanResult sampleResultFinished ∧
      (∃ s ∈ samplePG.scans, s.id = 1) ∧
      (∃ s ∈ sampleNeo.scans, s.id = 1) ∧
      ((∃ s, pgSelectScan
          (pgInsertTestResults samplePG 1 1 sampleResultFinished).2 1 =
          some s ∧
          (sampleResultFinished.scan.score = none →
            s.state = .FAILED ∧ s.error ≠ none) ∧
          (sampleResultFinished.scan.score ≠ none →
            s.state = .FINISHED ∧ s.grade ≠ none ∧ s.score ≠ none)) ∧
        (∃ n, neoSelectScan
            (neoInsertTestResults sampleNeo 1 1 sampleResultFinished).2 1 =
            some n ∧
          (sampleResultFinished.scan.score = none →
            n.state = .FAILED ∧ n.error ≠ none) ∧
          (sampleResultFinished.scan.score ≠ none →
            n.state = .FINISHED ∧ n.grade ≠ none ∧ n.score ≠ none))) :=
  ⟨⟨by decide, by decide⟩, ⟨runningScanRow 1 1 100, by decide, rfl⟩,
    ⟨runningScanRow 1 1 100, by decide, rfl⟩,
    c3_terminal_state_reflects_score samplePG sampleNeo 1 1
      sampleResultFinished ⟨by decide, by decide⟩
      ⟨runningScanRow 1 1 100, by decide, rfl⟩
      ⟨runningScanRow 1 1 100, by decide, rfl⟩⟩

/-- C10: a completed result with an empty outcome map creates zero
TestResult records, yet the terminal scan update still runs: the scan moves
to FINISHED or FAILED according to `result.score` — on both backends. -/
theorem c10_empty_tests_still_terminal
    (stP : PGState) (stN : NeoState) (siteId scanId : Nat) (r : ScanResult)
    (h : r.tests = []) :
    ((pgInsertTestResults stP siteId scanId r).2.tests = stP.tests) ∧
      (∀ s ∈ (pgInsertTestResults stP siteId scanId r).2.scans,
        s.id = scanId →
          s.state =
            if r.scan.score ≠ none then ScanState.FINISHED
            else ScanState.FAILED) ∧
      ((neoInsertTestResults stN siteId scanId r).2.tests = stN.tests) ∧
      (∀ s ∈ (neoInsertTestResults stN siteId scanId r).2.scans,
        s.id = scanId →
          s.state =
            if r.scan.score ≠ none then ScanState.FINISHED
            else ScanState.FAILED) := by
  have hrows : pgTestRows siteId scanId r = [] := by
    simp [pgTestRows, h]
  have hdata : neoTestData r = [] := by
    simp [neoTestData, h]
  refine ⟨?_, ?_, ?_, ?_⟩
  · rw [pg_insertTestResults_state]
    simp [hrows]
  · rw [pg_insertTestResults_state]
    dsimp only
    intro s hs hid
    obtain ⟨s0, hs0, rfl⟩ := List.mem_map.mp hs
    by_cases h0 : s0.id = scanId
    · unfold pgTerminalUpdate
      simp [h0]
    · rw [pgTerminalUpdate_id] at hid
      exact absurd hid h0
  · unfold neoInsertTestResults neoWrites
    rw [hdata]
    simp [neoApplyWrite]
  · rw [neo_insertTestResults_scans]
    intro s hs hid
    obtain ⟨s0, hs0, rfl⟩ := List.mem_map.mp hs
    by_cases h0 : s0.id = scanId
    · unfold neoTerminalUpdate
      simp [h0]
    · rw [neoTerminalUpdate_id] at hid
      exact absurd hid h0

theorem c10_empty_tests_still_terminal_witness :
    sampleResultFailed.tests = [] ∧
      (((pgInsertTestResults samplePG 1 1 sampleResultFailed).2.tests =
          samplePG.tests) ∧
        (∀ s ∈ (pgInsertTestResults samplePG 1 1 sampleResultFailed).2.scans,
          s.id = 1 →
            s.state =
              if sampleResultFailed.scan.score ≠ none then ScanState.FINISHED
              else ScanState.FAILED) ∧
        ((neoInsertTestResults sampleNeo 1 1 sampleResultFailed).2.tests =
          sampleNeo.tests) ∧
        (∀ s ∈ (neoInsertTestResults sampleNeo 1 1 sampleResultFailed).2.scans,
          s.id = 1 →
            s.state =
              if sampleResultFailed.scan.score ≠ none then ScanState.FINISHED
              else ScanState.FAILED)) :=
  ⟨rfl, c10_empty_tests_still_terminal samplePG sampleNeo 1 1
    sampleResultFailed rfl⟩

/-- C7: on both backends, `insertScan(siteId)` on an existing site creates
a new RUNNING scan with zero counts and the current timestamp and returns
its record (normalized, with its fresh identifier, all terminal fields
null); on a nonexistent site it fails with `NotFound`. -/
theorem c7_insertScan_spec (stP : PGState) (stN : NeoState) (siteId : Nat) :
    ((stP.sites.filter (fun s => s.id = siteId)) ≠ [] →
      ∃ row st', pgInsertScan stP siteId = .ok (row, st') ∧
        row.state = .RUNNING ∧ row.tests_passed = 0 ∧
        row.tests_failed = 0 ∧ row.tests_quantity = 0 ∧
        row.start_time = stP.now ∧ row.grade = none ∧ row.score = none ∧
        row.error = none ∧ row.end_time = none ∧
        row.id = stP.nextScanId ∧ row.site_id = siteId ∧
        row ∈ st'.scans) ∧
      ((stP.sites.filter (fun s => s.id = siteId)) = [] →
        pgInsertScan stP siteId = .error .NotFound) ∧
      ((stN.sites.filter (fun s => s.id = siteId)) ≠ [] →
        ∃ nr st', neoInsertScan stN siteId = .ok (nr, st') ∧
          nr.state = .RUNNING ∧ nr.tests_passed = 0 ∧
          nr.tests_failed = 0 ∧ nr.tests_quantity = 0 ∧
          nr.start_time = stN.now ∧ nr.grade = none ∧ nr.score = none ∧
          nr.error = none ∧ nr.end_time = none ∧ nr.id = stN.nextId ∧
          nr.site_id = siteId ∧
          ∃ s ∈ st'.scans, s.id = nr.id ∧ s.state = .RUNNING) ∧
      ((stN.sites.filter (fun s => s.id = siteId)) = [] →
        neoInsertScan stN siteId = .error .NotFound) := by
  refine ⟨?_, ?_, ?_, ?_⟩
  · intro hne
    have hemp : (stP.sites.filter (fun s => s.id = siteId)).isEmpty = false := by
      cases hb : (stP.sites.filter (fun s => s.id = siteId)).isEmpty
      · rfl
      · exact absurd (List.isEmpty_iff.mp hb) hne
    refine ⟨_, _, by rw [pgInsertScan, hemp]; rfl,
      rfl, rfl, rfl, rfl, rfl, rfl, rfl, rfl, rfl, rfl, rfl, ?_⟩
    exact List.mem_append_right _ (List.mem_singleton_self _)
  · intro he
    have hemp : (stP.sites.filter (fun s => s.id = siteId)).isEmpty = true := by
      rw [List.isEmpty_iff]; exact he
    rw [pgInsertScan, hemp]
    rfl
  · intro hne
    have hemp : (stN.sites.filter (fun s => s.id = siteId)).isEmpty = false := by
      cases hb : (stN.sites.filter (fun s => s.id = siteId)).isEmpty
      · rfl
      · exact absurd (List.isEmpty_iff.mp hb) hne
    refine ⟨_, _, by rw [neoInsertScan, hemp]; rfl,
      rfl, rfl, rfl, rfl, rfl, rfl, rfl, rfl, rfl, rfl, rfl, ?_⟩
    exact ⟨_, List.mem_append_right _ (List.mem_singleton_self _), rfl, rfl⟩
  · intro he
    have hemp : (stN.sites.filter (fun s => s.id = siteId)).isEmpty = true := by
      rw [List.isEmpty_iff]; exact he
    rw [neoInsertScan, hemp]
    rfl

theorem c7_insertScan_spec_witness :
    (samplePG.sites.filter (fun s => s.id = 1)) ≠ [] ∧
      (sampleNeo.sites.filter (fun s => s.id = 1)) ≠ [] ∧
      (samplePG.sites.filter (fun s => s.id = 99)) = [] ∧
      (sampleNeo.sites.filter (fun s => s.id = 99)) = [] ∧
      (∃ row st', pgInsertScan samplePG 1 = .ok (row, st') ∧
        row.state = .RUNNING ∧ row.tests_passed = 0 ∧
        row.tests_failed = 0 ∧ row.tests_quantity = 0 ∧
        row.start_time = samplePG.now ∧ row.grade = none ∧
        row.score = none ∧ row.error = none ∧ row.end_time = none ∧
        row.id = samplePG.nextScanId ∧ row.site_id = 1 ∧
        row ∈ st'.scans) ∧
      pgInsertScan samplePG 99 = .error .NotFound ∧
      (∃ nr st', neoInsertScan sampleNeo 1 = .ok (nr, st') ∧
        nr.state = .RUNNING ∧ nr.tests_passed = 0 ∧
        nr.tests_failed = 0 ∧ nr.tests_quantity = 0 ∧
        nr.start_time = sampleNeo.now ∧ nr.grade = none ∧
        nr.score = none ∧ nr.error = none ∧ nr.end_time = none ∧
        nr.id = sampleNeo.nextId ∧ nr.site_id = 1 ∧
        ∃ s ∈ st'.scans, s.id = nr.id ∧ s.state = .RUNNING) ∧
      neoInsertScan sampleNeo 99 = .error .NotFound :=
  ⟨by decide, by decide, by decide, by decide,
    (c7_insertScan_spec samplePG sampleNeo 1).1 (by decide),
    (c7_insertScan_spec samplePG sampleNeo 99).2.1 (by decide),
    (c7_insertScan_spec samplePG sampleNeo 1).2.2.1 (by decide),
    (c7_insertScan_spec samplePG sampleNeo 99).2.2.2 (by decide)⟩

/-- C4 (counterexample): neither backend guards on a scan's current state:
`updateScanState` writes whatever state it is passed, so a FINISHED scan is
moved back to RUNNING by `updateScanState(scanId, RUNNING)` — terminal
states can be transitioned out of. -/
theorem c4_terminal_state_overwritten :
    (finScanRow 1 1 100 100 "A+").state = ScanState.FINISHED ∧
      ((pgUpdateScanState
          { sites := [{ id := 1, domain := "example.com", creation_time := 0 }]
            scans := [finScanRow 1 1 100 100 "A+"]
            tests := []
            nextSiteId := 2
            nextScanId := 2
            now := 500 } 1 ScanState.RUNNING none).2.scans.map
        (fun s => s.state)) = [ScanState.RUNNING] := by
  decide

/-- C4 (amended): the layer never checks a scan's previous state, so a
terminal scan can be overwritten (even to a non-terminal state if
`updateScanState` is passed one); what holds is that under `updateScanState`'s
documented states (ABORTED or FAILED) and under `insertTestResults` (which
always writes FINISHED or FAILED), every scan that was in a terminal state
is still in a terminal state afterwards, on both backends. -/
theorem c4_terminal_stays_terminal
    (stP : PGState) (stN : NeoState) (siteId scanId : Nat)
    (state : ScanState) (err : Option String) (r : ScanResult)
    (h : state = .ABORTED ∨ state = .FAILED) :
    List.Forall₂
        (fun s s' => s.state.isTerminal = true → s'.state.isTerminal = true)
        stP.scans (pgUpdateScanState stP scanId state err).2.scans ∧
      List.Forall₂
        (fun s s' => s.state.isTerminal = true → s'.state.isTerminal = true)
        stP.scans (pgInsertTestResults stP siteId scanId r).2.scans ∧
      List.Forall₂
        (fun s s' => s.state.isTerminal = true → s'.state.isTerminal = true)
        stN.scans (neoUpdateScanState stN scanId state err).2.scans ∧
      List.Forall₂
        (fun s s' => s.state.isTerminal = true → s'.state.isTerminal = true)
        stN.scans (neoInsertTestResults stN siteId scanId r).2.scans := by
  have hterm : state.isTerminal = true := by
    rcases h with rfl | rfl <;> rfl
  refine ⟨?_, ?_, ?_, ?_⟩
  · show List.Forall₂ _ stP.scans (stP.scans.map _)
    rw [List.forall₂_map_right_iff, List.forall₂_same]
    intro s _ hs
    by_cases h0 : s.id = scanId
    · by_cases he : errTruthy err = true <;> simp [h0, he, hterm]
    · simp [h0, hs]
  · rw [pg_insertTestResults_state]
    dsimp only
    rw [List.forall₂_map_right_iff, List.forall₂_same]
    intro s _ hs
    unfold pgTerminalUpdate
    by_cases h0 : s.id = scanId
    · by_cases hsc : r.scan.score = none <;> simp [h0, hsc, ScanState.isTerminal]
    · simp [h0, hs]
  · show List.Forall₂ _ stN.scans (stN.scans.map _)
    rw [List.forall₂_map_right_iff, List.forall₂_same]
    intro s _ hs
    by_cases h0 : s.id = scanId
    · by_cases he : errTruthy err = true <;> simp [h0, he, hterm]
    · simp [h0, hs]
  · rw [neo_insertTestResults_scans]
    rw [List.forall₂_map_right_iff, List.forall₂_same]
    intro s _ hs
    unfold neoTerminalUpdate
    by_cases h0 : s.id = scanId
    · by_cases hsc : r.scan.score = none <;> simp [h0, hsc, ScanState.isTerminal]
    · simp [h0, hs]

theorem c4_terminal_stays_terminal_witness :
    (ScanState.ABORTED = ScanState.ABORTED ∨
        ScanState.ABORTED = ScanState.FAILED) ∧
      List.Forall₂
        (fun s s' => s.state.isTerminal = true → s'.state.isTerminal = true)
        samplePG.scans
        (pgUpdateScanState samplePG 1 ScanState.ABORTED none).2.scans :=
  ⟨Or.inl rfl,
    (c4_terminal_stays_terminal samplePG sampleNeo 1 1 ScanState.ABORTED
      none sampleResultFinished (Or.inl rfl)).1⟩

/-- The part of the spec's scan invariant the code actually maintains:
`grade` and `score` are simultaneously null or simultaneously set, and a
FINISHED scan has a non-null score and a non-null end timestamp. -/
def ScanInv (s : ScanRow) : Prop :=
  (s.grade = none ↔ s.score = none) ∧
  (s.state = .FINISHED → s.score ≠ none ∧ s.end_time ≠ none)

instance ScanInv.decidable (s : ScanRow) : Decidable (ScanInv s) := by
  unfold ScanInv
  infer_instance

/-- C5 (counterexample): the claimed three-way simultaneity of end
timestamp, grade and score fails on the code: a failed terminal transition
(`insertTestResults` with a null score) sets the end timestamp while grade
and score stay null. -/
theorem c5_end_time_set_with_null_score :
    ((pgInsertTestResults samplePG 1 1 sampleResultFailed).2.scans.map
      (fun s => (s.end_time, s.grade, s.score, s.state))) =
      [(some 500, none, none, ScanState.FAILED)] := by
  decide

/-- C5 (amended): grade and score are simultaneously null or simultaneously
set, and every FINISHED scan has a non-null score (and a non-null end
timestamp) — an invariant preserved by `insertScan`, `insertTestResults`
(for well-formed results) and `updateScanState` (with its documented ABORTED
or FAILED state) on both backends; a scan moved to FAILED by
`insertTestResults` carries the result's non-null error.  The end timestamp
is not part of the simultaneity — a FAILED transition sets it with null
grade/score — and a FAILED state forced by `updateScanState` without an
error argument may leave the error null. -/
theorem c5_invariant_preserved
    (stP : PGState) (stN : NeoState) (siteId scanId : Nat)
    (state : ScanState) (err : Option String) (r : ScanResult)
    (hwf : WellFormedScanResult r)
    (hstate : state = .ABORTED ∨ state = .FAILED)
    (hP : ∀ s ∈ stP.scans, ScanInv s)
    (hN : ∀ s ∈ stN.scans, ScanInv s) :
    (∀ row st', pgInsertScan stP siteId = .ok (row, st') →
        ∀ s ∈ st'.scans, ScanInv s) ∧
      (∀ s ∈ (pgInsertTestResults stP siteId scanId r).2.scans, ScanInv s) ∧
      (∀ s ∈ (pgUpdateScanState stP scanId state err).2.scans, ScanInv s) ∧
      (∀ nr st', neoInsertScan stN siteId = .ok (nr, st') →
        ∀ s ∈ st'.scans, ScanInv s) ∧
      (∀ s ∈ (neoInsertTestResults stN siteId scanId r).2.scans, ScanInv s) ∧
      (∀ s ∈ (neoUpdateScanState stN scanId state err).2.scans, ScanInv s) ∧
      (r.scan.score = none →
        (∀ s ∈ (pgInsertTestResults stP siteId scanId r).2.scans,
          s.id = scanId → s.state = .FAILED ∧ s.error ≠ none) ∧
        (∀ s ∈ (neoInsertTestResults stN siteId scanId r).2.scans,
          s.id = scanId → s.state = .FAILED ∧ s.error ≠ none)) := by
  have hinsertP : ∀ (m : ScanMeta) (now : Nat) (s : ScanRow),
      ScanInv (pgTerminalUpdate scanId m now s) → True := fun _ _ _ _ => trivial
  have hupdInv : ∀ s : ScanRow, ScanInv s →
      ScanInv (if r.scan.score ≠ none then
        ({ s with
            end_time := some stP.now
            tests_failed := r.scan.testsFailed
            tests_passed := r.scan.testsPassed
            grade := r.scan.grade
            score := r.scan.score
            state := .FINISHED
            response_headers := r.scan.responseHeaders
            status_code := r.scan.statusCode
            algorithm_version := r.scan.algorithmVersion
            tests_quantity := r.scan.testsQuantity
            error := r.scan.error } : ScanRow)
      else
        { s with
            end_time := some stP.now
            tests_failed := r.scan.testsFailed
            tests_passed := r.scan.testsPassed
            grade := r.scan.grade
            score := r.scan.score
            state := .FAILED
            response_headers := r.scan.responseHeaders
            status_code := r.scan.statusCode
            algorithm_version := r.scan.algorithmVersion
            tests_quantity := r.scan.testsQuantity
            error := r.scan.error }) := fun s _ => by
    by_cases hsc : r.scan.score = none
    · simp only [hsc, ne_eq, not_true_eq_false, if_false]
      exact ⟨by simp [hwf.1, hsc], by intro h; cases h⟩
    · simp only [hsc, ne_eq, not_false_eq_true, if_true]
      exact ⟨by simp [hwf.1, hsc], fun _ => ⟨hsc, by simp⟩⟩
  clear hinsertP
  refine ⟨?_, ?_, ?_, ?_, ?_, ?_, ?_⟩
  · intro row st' hok s hs
    unfold pgInsertScan at hok
    by_cases hemp : (stP.sites.filter (fun s => s.id = siteId)).isEmpty
    · rw [if_pos hemp] at hok; cases hok
    · rw [if_neg hemp] at hok
      cases hok
      rcases List.mem_append.mp hs with hmem | hmem
      · exact hP s hmem
      · rcases List.mem_singleton.mp hmem with rfl
        exact ⟨by simp, by intro h; cases h⟩
  · rw [pg_insertTestResults_state]
    dsimp only
    intro s hs
    obtain ⟨s0, hs0, rfl⟩ := List.mem_map.mp hs
    unfold pgTerminalUpdate
    by_cases h0 : s0.id = scanId
    · rw [if_pos h0]
      by_cases hsc : r.scan.score = none
      · exact ⟨by simp [hwf.1, hsc], by intro h; simp [hsc] at h⟩
      · refine ⟨by simp [hwf.1, hsc], fun _ => ⟨by simpa using hsc, by simp⟩⟩
    · rw [if_neg h0]
      exact hP s0 hs0
  · intro s hs
    have : s ∈ stP.scans.map (fun s =>
        if s.id = scanId then
          if errTruthy err then
            { s with state := state, end_time := some stP.now, error := err }
          else { s with state := state }
        else s) := hs
    obtain ⟨s0, hs0, rfl⟩ := List.mem_map.mp this
    have hinv := hP s0 hs0
    by_cases h0 : s0.id = scanId
    · by_cases he : errTruthy err = true
      · simp only [h0, if_pos rfl, he, if_true]
        refine ⟨hinv.1, ?_⟩
        intro hfin
        rcases hstate with rfl | rfl <;> cases hfin
      · simp only [h0, if_pos rfl, he, if_false, Bool.false_eq_true]
        refine ⟨hinv.1, ?_⟩
        intro hfin
        rcases hstate with rfl | rfl <;> cases hfin
    · simp only [h0, if_false]
      exact hinv
  · intro nr st' hok s hs
    unfold neoInsertScan at hok
    by_cases hemp : (stN.sites.filter (fun s => s.id = siteId)).isEmpty
    · rw [if_pos hemp] at hok; cases hok
    · rw [if_neg hemp] at hok
      cases hok
      rcases List.mem_append.mp hs with hmem | hmem
      · exact hN s hmem
      · rcases List.mem_singleton.mp hmem with rfl
        exact ⟨by simp, by intro h; cases h⟩
  · rw [neo_insertTestResults_scans]
    intro s hs
    obtain ⟨s0, hs0, rfl⟩ := List.mem_map.mp hs
    unfold neoTerminalUpdate
    by_cases h0 : s0.id = scanId
    · rw [if_pos h0]
      by_cases hsc : r.scan.score = none
      · exact ⟨by simp [hwf.1, hsc], by intro h; simp [hsc] at h⟩
      · refine ⟨by simp [hwf.1, hsc], fun _ => ⟨by simpa using hsc, by simp⟩⟩
    · rw [if_neg h0]
      exact hN s0 hs0
  · intro s hs
    have : s ∈ stN.scans.map (fun s =>
        if s.id = scanId then
          if errTruthy err then
            { s with state := state, end_time := some stN.now, error := err }
          else { s with state := state, end_time := none }
        else s) := hs
    obtain ⟨s0, hs0, rfl⟩ := List.mem_map.mp this
    have hinv := hN s0 hs0
    by_cases h0 : s0.id = scanId
    · by_cases he : errTruthy err = true
      · simp only [h0, if_pos rfl, he, if_true]
        refine ⟨hinv.1, ?_⟩
        intro hfin
        rcases hstate with rfl | rfl <;> cases hfin
      · simp only [h0, if_pos rfl, he, if_false, Bool.false_eq_true]
        refine ⟨hinv.1, ?_⟩
        intro hfin
        rcases hstate with rfl | rfl <;> cases hfin
    · simp only [h0, if_false]
      exact hinv
  · intro hsc
    constructor
    · rw [pg_insertTestResults_state]
      dsimp only
      intro s hs hid
      obtain ⟨s0, hs0, rfl⟩ := List.mem_map.mp hs
      by_cases h0 : s0.id = scanId
      · unfold pgTerminalUpdate
        rw [if_pos h0]
        exact ⟨by simp [hsc], hwf.2 hsc⟩
      · rw [pgTerminalUpdate_id] at hid
        exact absurd hid h0
    · rw [neo_insertTestResults_scans]
      intro s hs hid
      obtain ⟨s0, hs0, rfl⟩ := List.mem_map.mp hs
      by_cases h0 : s0.id = scanId
      · unfold neoTerminalUpdate
        rw [if_pos h0]
        exact ⟨by simp [hsc], hwf.2 hsc⟩
      · rw [neoTerminalUpdate_id] at hid
        exact absurd hid h0

theorem c5_invariant_preserved_witness :
    WellFormedScanResult sampleResultFinished ∧
      (ScanState.ABORTED = ScanState.ABORTED ∨
        ScanState.ABORTED = ScanState.FAILED) ∧
      (∀ s ∈ samplePG.scans, ScanInv s) ∧
      (∀ s ∈ sampleNeo.scans, ScanInv s) ∧
      (∀ s ∈ (pgInsertTestResults samplePG 1 1
          sampleResultFinished).2.scans, ScanInv s) ∧
      (∀ s ∈ (neoInsertTestResults sampleNeo 1 1
          sampleResultFinished).2.scans, ScanInv s) :=
  ⟨⟨by decide, by decide⟩, Or.inl rfl, by decide, by decide,
    (c5_invariant_preserved samplePG sampleNeo 1 1 ScanState.ABORTED none
      sampleResultFinished ⟨by decide, by decide⟩ (Or.inl rfl) (by decide)
      (by decide)).2.1,
    (c5_invariant_preserved samplePG sampleNeo 1 1 ScanState.ABORTED none
      sampleResultFinished ⟨by decide, by decide⟩ (Or.inl rfl) (by decide)
      (by decide)).2.2.2.2.1⟩

/-- C8 (counterexample): on the graph backend, `updateScanState` without an
error argument still sends `endTime: null` in its `+=` property map, which
removes the property: a scan whose end timestamp was set loses it — the
end timestamp is not unchanged. -/
theorem c8_graph_update_clears_end_time :
    (finScanRow 1 1 700 100 "A+").end_time = some 700 ∧
      ((neoUpdateScanState
          { sites := [{ id := 1, domain := "example.com", creation_time := 0 }]
            scans := [finScanRow 1 1 700 100 "A+"]
            tests := []
            nextId := 2
            now := 900 } 1 ScanState.ABORTED none).2.scans.map
        (fun s => s.end_time)) = [none] := by
  decide

/-- C8 (amended): for a call of `updateScanState` without an error
argument, the relational backend changes nothing but the scan's state; the
graph backend changes nothing but the state and the end timestamp, which it
clears (so for scans whose end timestamp is already null, both backends
change only the state). -/
theorem c8_update_without_error_frame (stP : PGState) (stN : NeoState)
    (scanId : Nat) (state : ScanState) :
    pgSelectScan (pgUpdateScanState stP scanId state none).2 scanId =
        (pgSelectScan stP scanId).map (fun s => { s with state := state }) ∧
      neoSelectScan (neoUpdateScanState stN scanId state none).2 scanId =
        (neoSelectScan stN scanId).map
          (fun n => { n with state := state, end_time := none }) := by
  constructor
  · unfold pgUpdateScanState pgSelectScan
    dsimp only
    rw [find_map_of_pred_inv _ _
      (fun x => by by_cases h : x.id = scanId <;> simp [h, errTruthy])]
    cases hfind : stP.scans.find? (fun s => s.id = scanId) with
    | none => rfl
    | some s0 =>
        have hs0 : s0.id = scanId := by
          simpa using List.find?_some hfind
        simp [hs0, errTruthy]
  · unfold neoUpdateScanState neoSelectScan
    dsimp only
    rw [find_map_of_pred_inv _ _
      (fun x => by by_cases h : x.id = scanId <;> simp [h, errTruthy])]
    cases hfind : stN.scans.find? (fun s => s.id = scanId) with
    | none => rfl
    | some s0 =>
        have hs0 : s0.id = scanId := by
          simpa using List.find?_some hfind
        simp [hs0, errTruthy, mapScanRow]

/-- The TestResult nodes the graph `insertTestResults` creates, one per
outcome-map entry, with consecutively drawn fresh identifiers. -/
def neoTestRowsFrom (scanId firstId : Nat) : List NeoTestData → List NeoTestRow
  | [] => []
  | t :: ts =>
      { id := firstId
        scan_id := scanId
        name := t.name
        expectation := t.expectation
        result := t.result
        pass := t.pass
        score_modifier := t.scoreModifier
        output := t.output } :: neoTestRowsFrom scanId (firstId + 1) ts

theorem neo_foldl_insertTest_tests (scanId : Nat) (ts : List NeoTestData)
    (st : NeoState)
    (hex : (st.scans.filter (fun s => s.id = scanId)).isEmpty = false) :
    ((ts.map (fun t => NeoWrite.insertTest scanId t)).foldl
        neoApplyWrite st).tests =
      st.tests ++ neoTestRowsFrom scanId st.nextId ts := by
  induction ts generalizing st with
  | nil => simp [neoTestRowsFrom]
  | cons t ts ih =>
      simp only [List.map_cons, List.foldl_cons]
      have hstep : neoApplyWrite st (.insertTest scanId t) =
          { st with
            tests := st.tests ++
              [{ id := st.nextId
                 scan_id := scanId
                 name := t.name
                 expectation := t.expectation
                 result := t.result
                 pass := t.pass
                 score_modifier := t.scoreModifier
                 output := t.output }]
            nextId := st.nextId + 1 } := by
        simp [neoApplyWrite, hex]
      rw [hstep, ih _ (by exact hex)]
      simp [neoTestRowsFrom]

/-- C6: on both backends, `insertTestResults` issues all TestResult
creations strictly before the single write that puts the scan into a
terminal state (the terminal update is the last write, and the writes
before it are exactly the test inserts); executing any proper prefix of the
write sequence — a crash between the steps — leaves the scan rows
untouched, hence still RUNNING, while the completed sequence leaves the
scan terminal with every TestResult already written. -/
theorem c6_tests_before_terminal_write
    (stP : PGState) (stN : NeoState) (siteId scanId : Nat) (r : ScanResult)
    (hP : ∀ s ∈ stP.scans, s.id = scanId → s.state = .RUNNING)
    (hN : ∀ s ∈ stN.scans, s.id = scanId → s.state = .RUNNING)
    (hNex : ∃ s ∈ stN.scans, s.id = scanId) :
    (∃ pre, pgWrites siteId scanId r =
        pre ++ [PGWrite.updateScanTerminal scanId r.scan] ∧
        ∀ w ∈ pre, ∃ rows, w = PGWrite.insertTests rows) ∧
      (∃ pre, neoWrites scanId r =
        pre ++ [NeoWrite.updateScanTerminal scanId r.scan] ∧
        ∀ w ∈ pre, ∃ t, w = NeoWrite.insertTest scanId t) ∧
      (∀ n, n < (pgWrites siteId scanId r).length →
        ((((pgWrites siteId scanId r).take n).foldl pgApplyWrite
            stP).scans = stP.scans) ∧
          ∀ s ∈ (((pgWrites siteId scanId r).take n).foldl pgApplyWrite
            stP).scans, s.id = scanId → s.state = .RUNNING) ∧
      (∀ n, n < (neoWrites scanId r).length →
        ((((neoWrites scanId r).take n).foldl neoApplyWrite
            stN).scans = stN.scans) ∧
          ∀ s ∈ (((neoWrites scanId r).take n).foldl neoApplyWrite
            stN).scans, s.id = scanId → s.state = .RUNNING) ∧
      (∀ s ∈ (pgInsertTestResults stP siteId scanId r).2.scans,
        s.id = scanId → s.state.isTerminal = true) ∧
      (∀ t ∈ pgTestRows siteId scanId r,
        t ∈ (pgInsertTestResults stP siteId scanId r).2.tests) ∧
      (∀ s ∈ (neoInsertTestResults stN siteId scanId r).2.scans,
        s.id = scanId → s.state.isTerminal = true) ∧
      ((neoInsertTestResults stN siteId scanId r).2.tests =
        stN.tests ++ neoTestRowsFrom scanId stN.nextId (neoTestData r)) := by
  have hexN : (stN.scans.filter (fun s => s.id = scanId)).isEmpty = false := by
    obtain ⟨s, hs, hid⟩ := hNex
    have hmem : s ∈ stN.scans.filter (fun s => s.id = scanId) :=
      List.mem_filter.mpr ⟨hs, by simp [hid]⟩
    cases hb : (stN.scans.filter (fun s => s.id = scanId)).isEmpty
    · rfl
    · rw [List.isEmpty_iff.mp hb] at hmem
      cases hmem
  refine ⟨?_, ?_, ?_, ?_, ?_, ?_, ?_, ?_⟩
  · unfold pgWrites
    by_cases hemp : (pgTestRows siteId scanId r).isEmpty
    · exact ⟨[], by rw [if_pos hemp], by intro w hw; cases hw⟩
    · refine ⟨[.insertTests (pgTestRows siteId scanId r)],
        by rw [if_neg hemp], ?_⟩
      intro w hw
      rcases List.mem_singleton.mp hw with rfl
      exact ⟨_, rfl⟩
  · refine ⟨(neoTestData r).map (fun t => NeoWrite.insertTest scanId t),
      rfl, ?_⟩
    intro w hw
    rcases List.mem_map.mp hw with ⟨t, _, rfl⟩
    exact ⟨t, rfl⟩
  · intro n hn
    unfold pgWrites at hn ⊢
    by_cases hemp : (pgTestRows siteId scanId r).isEmpty
    · rw [if_pos hemp] at hn ⊢
      simp only [List.nil_append, List.length_cons, List.length_nil] at hn
      have h0 : n = 0 := by omega
      subst h0
      exact ⟨rfl, hP⟩
    · rw [if_neg hemp] at hn ⊢
      simp only [List.cons_append, List.nil_append, List.length_cons,
        List.length_nil] at hn
      match n, hn with
      | 0, _ => exact ⟨rfl, hP⟩
      | 1, _ => exact ⟨rfl, hP⟩
  · intro n hn
    have hle : n ≤
        ((neoTestData r).map (fun t => NeoWrite.insertTest scanId t)).length := by
      unfold neoWrites at hn
      rw [List.length_append, List.length_cons, List.length_nil] at hn
      omega
    have htake : (neoWrites scanId r).take n =
        ((neoTestData r).take n).map (fun t => NeoWrite.insertTest scanId t) := by
      unfold neoWrites
      rw [List.take_append_of_le_length hle, ← List.map_take]
    rw [htake]
    have h := neo_foldl_insertTest_scans scanId ((neoTestData r).take n) stN
    refine ⟨h.1, ?_⟩
    rw [h.1]
    exact hN
  · rw [pg_insertTestResults_state]
    dsimp only
    intro s hs hid
    obtain ⟨s0, hs0, rfl⟩ := List.mem_map.mp hs
    by_cases h0 : s0.id = scanId
    · unfold pgTerminalUpdate
      rw [if_pos h0]
      by_cases hsc : r.scan.score = none <;>
        simp [hsc, ScanState.isTerminal]
    · rw [pgTerminalUpdate_id] at hid
      exact absurd hid h0
  · rw [pg_insertTestResults_state]
    dsimp only
    intro t ht
    exact List.mem_append_right _ ht
  · rw [neo_insertTestResults_scans]
    intro s hs hid
    obtain ⟨s0, hs0, rfl⟩ := List.mem_map.mp hs
    by_cases h0 : s0.id = scanId
    · unfold neoTerminalUpdate
      rw [if_pos h0]
      by_cases hsc : r.scan.score = none <;>
        simp [hsc, ScanState.isTerminal]
    · rw [neoTerminalUpdate_id] at hid
      exact absurd hid h0
  · unfold neoInsertTestResults neoWrites
    dsimp only
    rw [List.foldl_append]
    simp only [List.foldl_cons, List.foldl_nil, neoApplyWrite]
    exact neo_foldl_insertTest_tests scanId (neoTestData r) stN hexN

theorem c6_tests_before_terminal_write_witness :
    (∀ s ∈ samplePG.scans, s.id = 1 → s.state = .RUNNING) ∧
      (∀ s ∈ sampleNeo.scans, s.id = 1 → s.state = .RUNNING) ∧
      (∃ s ∈ sampleNeo.scans, s.id = 1) ∧
      (∀ t ∈ pgTestRows 1 1 sampleResultFinished,
        t ∈ (pgInsertTestResults samplePG 1 1 sampleResultFinished).2.tests) ∧
      ((neoInsertTestResults sampleNeo 1 1 sampleResultFinished).2.tests =
        sampleNeo.tests ++
          neoTestRowsFrom 1 sampleNeo.nextId (neoTestData sampleResultFinished)) :=
  ⟨by decide, by decide, ⟨runningScanRow 1 1 100, by decide, rfl⟩,
    (c6_tests_before_terminal_write samplePG sampleNeo 1 1
      sampleResultFinished (by decide) (by decide)
      ⟨runningScanRow 1 1 100, by decide, rfl⟩).2.2.2.2.2.1,
    (c6_tests_before_terminal_write samplePG sampleNeo 1 1
      sampleResultFinished (by decide) (by decide)
      ⟨runningScanRow 1 1 100, by decide, rfl⟩).2.2.2.2.2.2.2⟩

/-- C9: on both backends, two sequential `ensureSite` calls with the same
site key return the same site identifier, whatever the clock reads at the
second call — `ensureSite` is an idempotent lookup-or-create. -/
theorem c9_ensureSite_idempotent (stP : PGState) (stN : NeoState)
    (k : String) (t u : Nat) :
    (pgEnsureSite { (pgEnsureSite stP k).2 with now := t } k).1 =
        (pgEnsureSite stP k).1 ∧
      (neoEnsureSite { (neoEnsureSite stN k).2 with now := u } k).1 =
        (neoEnsureSite stN k).1 := by
  constructor
  · cases h : selectLatestSite stP.sites k with
    | some s => simp [pgEnsureSite, h]
    | none =>
        have hf := (selectLatestSite_eq_none_iff stP.sites k).mp h
        have h2 := selectLatestSite_append_single stP.sites k
          { id := stP.nextSiteId, domain := k, creation_time := stP.now }
          hf rfl
        simp [pgEnsureSite, h, h2]
  · cases h : selectLatestSite stN.sites k with
    | some s => simp [neoEnsureSite, h]
    | none =>
        have hf := (selectLatestSite_eq_none_iff stN.sites k).mp h
        have h2 := selectLatestSite_append_single stN.sites k
          { id := stN.nextId, domain := k, creation_time := stN.now }
          hf rfl
        simp [neoEnsureSite, h, h2]

end Observatory
